import Mathlib

/-!
Shallow embedding of `norm_identification2.py` (norm-detect): the norm-hypothesis
suite engine.  Hypotheses, the sanction-based and plan-based likelihood engines,
the odds-ratio update orchestrator, goal (re)setting, and top-N selection are
translated directly from the Python source.  Real arithmetic is modelled with ℚ
(the spec treats updates "under exact arithmetic"); Python exceptions are
modelled with `Except PyErr`.
-/

namespace NormDetect

/-- The four probability parameters of a `NormSuite`. -/
structure Params where
  prob_non_compliance : ℚ
  prob_viol_detection : ℚ
  prob_sanctioning : ℚ
  prob_random_punishment : ℚ
deriving DecidableEq

/-- Norm hypotheses: `None` (no norm), a `(modality, node)` pair, or a
`(context_node, modality, node)` triple.  The modality is an arbitrary string,
as in the Python tuples; invalid modalities raise at likelihood time. -/
inductive Hyp where
  | none
  | pair (modality node : String)
  | triple (context_node modality node : String)
deriving DecidableEq

/-- Python exception kinds relevant to this module.  Only `ValueError` is ever
caught by the orchestrator. -/
inductive PyErr where
  | valueError (msg : String)
  | assertionError
  | nameError
  | zeroDivisionError
deriving DecidableEq

/-- Python division `a / b`, which raises `ZeroDivisionError` on `b = 0`. -/
def pydiv (a b : ℚ) : Except PyErr ℚ :=
  if b = 0 then .error .zeroDivisionError else .ok (a / b)

/-- `is_sub_list(list1, list2)`: is `list1` a contiguous sub-sequence of
`list2`?  (`any(list1 == list2[i:i+len(list1)] for i in range(len(list2)-len(list1)+1))`) -/
def is_sub_list (list1 list2 : List String) : Bool :=
  (List.range (list2.length - list1.length + 1)).any
    (fun i => decide ((list2.drop i).take list1.length = list1))

/-- The per-modality `violation_indices` function defined inside
`LikelihoodUsingSanctions`: maps a clean path to the set of path positions at
which the hypothesis is breached.  An invalid modality raises `ValueError`.
(The `None` hypothesis never reaches this code in the source.)
Python note: for `("eventually", node)` on the empty path the source would
yield the index set `{-1}`; the likelihood loop over `range(0)` never reads it,
and here `len(path)-1` is Nat subtraction. -/
def violation_indices (hypothesis : Hyp) : Except PyErr (List String → Finset ℕ) :=
  match hypothesis with
  | .none => .error (.valueError "NoNorm handled before violation_indices")
  | .pair modality node =>
    if modality = "eventually" then
      .ok (fun path =>
        if path.all (fun item => item != node) then {path.length - 1} else ∅)
    else if modality = "never" then
      .ok (fun path =>
        ((path.enum.filter (fun p => p.2 == node)).map Prod.fst).toFinset)
    else .error (.valueError "Invalid modality in hypothesis")
  | .triple context_node modality node =>
    if modality = "next" then
      .ok (fun path =>
        (((List.range (path.length - 1)).filter
            (fun i => path.getD i "" == context_node && path.getD (i+1) "" != node)).map
          (fun i => i + 1)).toFinset)
    else if modality = "not next" then
      .ok (fun path =>
        (((List.range (path.length - 1)).filter
            (fun i => path.getD i "" == context_node && path.getD (i+1) "" == node)).map
          (fun i => i + 1)).toFinset)
    else if modality = "eventually" then
      .ok (fun path =>
        let last_context_index :=
          match (path.dropLast.reverse).findIdx? (fun item => item == context_node) with
          | some idx => path.length - idx - 2
          | Option.none => path.length
        if last_context_index < path.length - 1 ∧
            (path.drop (last_context_index + 1)).all (fun item => item != node) then
          {path.length - 1}
        else ∅)
    else if modality = "never" then
      .ok (fun path =>
        let first_context_index :=
          (path.dropLast.findIdx? (fun item => item == context_node)).getD path.length
        (((path.drop (first_context_index + 1)).enum.filter
            (fun p => p.2 == node)).map Prod.fst).toFinset)
    else .error (.valueError "Invalid modality in hypothesis")

/-- `LikelihoodUsingSanctions(obs_path, sanction_indices, hypothesis)`.
For `None`: `(1-p_random)^(len(obs_path)-len(sanction_indices)) * p_random^len(sanction_indices)`
(the exponent is an integer in the source; Python raises `ZeroDivisionError`
for `0.0 ** negative`, which ℚ-zpow totalises to `0`, a case no trace reaches
with the default parameters).  For a concrete hypothesis: the per-position
product over the clean path. -/
def LikelihoodUsingSanctions (P : Params) (obs_path : List String)
    (sanction_indices : Finset ℕ) (hypothesis : Hyp) : Except PyErr ℚ :=
  match hypothesis with
  | .none =>
    .ok ((1 - P.prob_random_punishment) ^
          ((obs_path.length : ℤ) - (sanction_indices.card : ℤ)) *
         P.prob_random_punishment ^ sanction_indices.card)
  | h =>
    match violation_indices h with
    | .error e => .error e
    | .ok vi =>
    let viol_indices := vi obs_path
    .ok (∏ i ∈ Finset.range obs_path.length,
      if i ∈ viol_indices then
        (if i + 1 ∈ sanction_indices then
          P.prob_random_punishment +
            (1 - P.prob_random_punishment) * P.prob_viol_detection * P.prob_sanctioning
        else
          (1 - P.prob_viol_detection * P.prob_sanctioning) *
            (1 - P.prob_random_punishment))
      else
        (if i + 1 ∈ sanction_indices then P.prob_random_punishment
         else 1 - P.prob_random_punishment))

/-- The per-modality `is_norm_breaching` predicate defined inside
`LikelihoodUsingPlans`: does the hypothesis's constraint fail anywhere on the
path?  An invalid modality raises `ValueError`. -/
def is_norm_breaching (hypothesis : Hyp) : Except PyErr (List String → Bool) :=
  match hypothesis with
  | .none => .error (.valueError "NoNorm handled before is_norm_breaching")
  | .pair modality node =>
    if modality = "eventually" then
      .ok (fun path => path.all (fun item => item != node))
    else if modality = "never" then
      .ok (fun path => path.any (fun item => item == node))
    else .error (.valueError "Invalid modality in hypothesis")
  | .triple context_node modality node =>
    if modality = "next" then
      .ok (fun path =>
        ((List.range path.length).filter (fun i => path.getD i "" == context_node)).any
          (fun i => decide (i ≠ path.length - 1) && path.getD (i+1) "" != node))
    else if modality = "not next" then
      .ok (fun path =>
        ((List.range path.length).filter (fun i => path.getD i "" == context_node)).any
          (fun i => decide (i ≠ path.length - 1) && path.getD (i+1) "" == node))
    else if modality = "eventually" then
      .ok (fun path =>
        let last_context_index :=
          match (path.dropLast.reverse).findIdx? (fun item => item == context_node) with
          | some idx => path.length - idx - 2
          | Option.none => path.length
        decide (last_context_index < path.length - 1) &&
          (path.drop (last_context_index + 1)).all (fun item => item != node))
    else if modality = "never" then
      .ok (fun path =>
        let first_context_index :=
          (path.dropLast.findIdx? (fun item => item == context_node)).getD path.length
        (path.drop (first_context_index + 1)).any (fun item => item == node))
    else .error (.valueError "Invalid modality in hypothesis")

/-- `LikelihoodUsingPlans(obs_path, hypothesis)`, over the suite's cached plan
paths.  `num_plans` is `len(self.plans)`, which always equals
`len(self.plan_paths)` (both are built together in `SetGoal`), so the function
is parameterised by the plan paths alone.  The `assert num_plans > 0` and the
"no plan contains the observation" `ValueError` are modelled explicitly; the
two interior divisions occur only under guards making their denominators
nonzero, so total ℚ division is faithful there. -/
def LikelihoodUsingPlans (P : Params) (plan_paths : List (List String))
    (obs_path : List String) (hypothesis : Hyp) : Except PyErr ℚ :=
  let num_plans : ℚ := plan_paths.length
  if plan_paths.length = 0 then .error .assertionError
  else
    let plan_paths_containing_obs := plan_paths.filter (fun path => is_sub_list obs_path path)
    let num_plans_containing_obs := plan_paths_containing_obs.length
    if num_plans_containing_obs = 0 then
      .error (.valueError "Assumption violated: path cannot be generated for goal given plans")
    else
      let prob_obs_if_no_norm : ℚ := (num_plans_containing_obs : ℚ) / num_plans
      match hypothesis with
      | .none => .ok prob_obs_if_no_norm
      | h =>
        match is_norm_breaching h with
        | .error e => .error e
        | .ok breaching =>
        let norm_breaching_plans := plan_paths.filter breaching
        let num_non_norm_breaching_plans : ℚ :=
          num_plans - (norm_breaching_plans.length : ℚ)
        if num_non_norm_breaching_plans = 0 then
          .ok (P.prob_non_compliance * prob_obs_if_no_norm)
        else
          let norm_breaching_plans_containing_obs :=
            plan_paths_containing_obs.filter breaching
          let num_non_norm_breaching_plans_containing_obs : ℚ :=
            (num_plans_containing_obs : ℚ) - (norm_breaching_plans_containing_obs.length : ℚ)
          .ok ((1 - P.prob_non_compliance) * num_non_norm_breaching_plans_containing_obs /
                 num_non_norm_breaching_plans
               + P.prob_non_compliance * prob_obs_if_no_norm)

/-- The trace-splitting loop at the top of `UpdateOddsRatioVsNoNorm`:
`index` enumerates the raw trace; a `"!"` token adds
`index - len(sanction_indices)` to the sanction set; any other token is added
to the clean path by `obs_without_sanctions += item`, i.e. character by
character (Python list-plus-string concatenation). -/
def split_sanctions : List String → ℕ → Finset ℕ → List String → List String × Finset ℕ
  | [], _, sanction_indices, obs_without_sanctions => (obs_without_sanctions, sanction_indices)
  | item :: rest, index, sanction_indices, obs_without_sanctions =>
    if item = "!" then
      split_sanctions rest (index + 1)
        (insert (index - sanction_indices.card) sanction_indices) obs_without_sanctions
    else
      split_sanctions rest (index + 1) sanction_indices
        (obs_without_sanctions ++ item.toList.map Char.toString)

/-- The clean path and sanctioned-position set extracted from a raw trace. -/
def parse_obs (obs : List String) : List String × Finset ℕ :=
  split_sanctions obs 0 ∅ []

/-- `Normalize(fraction)`: overridden to a deliberate no-op (`pass`), since the
suite stores odds ratios.  The mass store is an association list
hypothesis ↦ mass (the dict `self.d`; keys are distinct). -/
def Normalize (_fraction : ℚ) (store : List (Hyp × ℚ)) : List (Hyp × ℚ) := store

/-- The per-hypothesis body of the `for hypo in self.Values()` loop:
multiply by the sanction odds ratio, then attempt the plan odds ratio, with a
`ValueError` from the hypothesis's plan likelihood swallowed (`pass`).
`plan_baseline` is `None` when the baseline plan likelihood raised a (caught)
`ValueError`; consulting it then is the source's unbound-local `NameError`,
an unreachable branch since the plan `ValueError` condition does not depend
on the hypothesis. -/
def hypothesis_update (P : Params) (plan_paths : List (List String))
    (obs_without_sanctions : List String) (sanction_indices : Finset ℕ)
    (no_norm_likelihood_using_sanctions : ℚ) (plan_baseline : Option ℚ)
    (hm : Hyp × ℚ) : Except PyErr (Hyp × ℚ) :=
  if hm.1 = Hyp.none then .ok hm
  else
    match LikelihoodUsingSanctions P obs_without_sanctions sanction_indices hm.1 with
    | .error e => .error e
    | .ok hypo_likelihood =>
      match pydiv hypo_likelihood no_norm_likelihood_using_sanctions with
      | .error e => .error e
      | .ok r1 =>
        let m1 := hm.2 * r1
        match LikelihoodUsingPlans P plan_paths obs_without_sanctions hm.1 with
        | .error (.valueError _) => .ok (hm.1, m1)
        | .error e => .error e
        | .ok hypo_plan_likelihood =>
          match plan_baseline with
          | some nn =>
            (match pydiv hypo_plan_likelihood nn with
              | .error e => .error e
              | .ok r2 => .ok (hm.1, m1 * r2))
          | Option.none => .error .nameError

/-- Apply the per-hypothesis update to every entry of the mass store (the
dict `self.d`, keys distinct), stopping at the first uncaught exception. -/
def update_store (f : Hyp × ℚ → Except PyErr (Hyp × ℚ)) :
    List (Hyp × ℚ) → Except PyErr (List (Hyp × ℚ))
  | [] => .ok []
  | hm :: rest =>
    match f hm with
    | .error e => .error e
    | .ok x =>
      match update_store f rest with
      | .error e => .error e
      | .ok xs => .ok (x :: xs)

/-- `UpdateOddsRatioVsNoNorm(obs)`: split the trace, compute the two `NoNorm`
baselines (a `ValueError` from the plan baseline is caught and merely printed;
any other exception propagates), then update every hypothesis.  On error the
source leaves the store partially mutated; the `Except` model returns the
error alone, which no claim observes. -/
def UpdateOddsRatioVsNoNorm (P : Params) (plan_paths : List (List String))
    (store : List (Hyp × ℚ)) (obs : List String) : Except PyErr (List (Hyp × ℚ)) :=
  let parsed := parse_obs obs
  match LikelihoodUsingSanctions P parsed.1 parsed.2 .none with
  | .error e => .error e
  | .ok no_norm_likelihood_using_sanctions =>
    match LikelihoodUsingPlans P plan_paths parsed.1 .none with
    | .error (.valueError _) =>
      update_store (hypothesis_update P plan_paths parsed.1 parsed.2
        no_norm_likelihood_using_sanctions Option.none) store
    | .error e => .error e
    | .ok v =>
      update_store (hypothesis_update P plan_paths parsed.1 parsed.2
        no_norm_likelihood_using_sanctions (some v)) store

/-- `UpdateSet(dataset)`: apply `UpdateOddsRatioVsNoNorm` to each observation
in input order. -/
def UpdateSet (P : Params) (plan_paths : List (List String)) :
    List (List String) → List (Hyp × ℚ) → Except PyErr (List (Hyp × ℚ))
  | [], store => .ok store
  | obs :: rest, store =>
    match UpdateOddsRatioVsNoNorm P plan_paths store obs with
    | .error e => .error e
    | .ok store' => UpdateSet P plan_paths rest store'

/-- The tie-extension loop of `most_probable_norms`, over the adjacent pairs
`(norms[i-1], norms[i])` of the descending-sorted hypothesis list, with `i`
starting at 1: when `i > topN`, a tie with the previous norm increments `topN`
and a non-tie breaks out of the loop. -/
def most_probable_norms_loop {α : Type} (d : α → ℚ) :
    List (α × α) → ℕ → ℕ → ℕ
  | [], _, topN => topN
  | pr :: rest, i, topN =>
    if i > topN then
      (if d pr.2 = d pr.1 then most_probable_norms_loop d rest (i + 1) (topN + 1)
       else topN)
    else most_probable_norms_loop d rest (i + 1) topN

/-- `most_probable_norms(topN)`.  `norms` is the hypothesis list in descending
order of mass, as produced by reversing the external priority queue's
ascending `sorted_queue()`; `d` is the mass map `self.d`. -/
def most_probable_norms {α : Type} (d : α → ℚ) (norms : List α) (topN : ℕ) :
    List α × ℕ :=
  let t := most_probable_norms_loop d (norms.zip norms.tail) 1 topN
  (norms.take t, t)

/-- An action: an ordered node path (the only field the core reads). -/
structure ActionT where
  path : List String
deriving DecidableEq

/-- `plan_path(plan)`: the first action's first node, then every action's path
with its first node dropped.  (The source indexes `plan[0].path[0]` directly
and would raise `IndexError` on an empty plan or first path; `take 1`/`headD`
totalise those unreachable cases.) -/
def plan_path (plan : List ActionT) : List String :=
  (plan.headD ⟨[]⟩).path.take 1 ++ (plan.map (fun action => action.path.drop 1)).flatten

/-- The suite state touched by `SetGoal`: the inferred goal, the action set,
and the cached plan corpus with its linearized paths.  The goal is opaque to
the core and modelled as a string. -/
structure SuiteState where
  inferred_goal : String
  actions : List ActionT
  plans : List (List ActionT)
  plan_paths : List (List String)
deriving DecidableEq

/-- A rendering of the action set used in the `SetGoal` error message
(standing in for Python's `%s` formatting of `self.actions`). -/
def render_actions (actions : List ActionT) : String :=
  String.intercalate "; " (actions.map (fun action => String.intercalate "," action.path))

/-- `SetGoal(goal)`.  The external planner (`planned`, `flattened_plan_tree`
from `planlib`, out of scope for the core) is passed in as two functions.
Modelled from the spec: `planned` reports whether at least one plan achieves
the goal given the action set, and `flattened_plan_tree` enumerates those
plans.  On success the plan corpus and paths are rebuilt from the new goal; on
failure a `ValueError` naming the goal and action set is raised (the source
mutates `self.inferred_goal` before the check; the `Except` model returns the
error alone). -/
def SetGoal (planned : String → List ActionT → Bool)
    (flattened_plan_tree : String → List (List ActionT))
    (st : SuiteState) (goal : String) : Except PyErr SuiteState :=
  if planned goal st.actions then
    .ok { st with
            inferred_goal := goal
            plans := flattened_plan_tree goal
            plan_paths := (flattened_plan_tree goal).map plan_path }
  else
    .error (.valueError
      ("Error: Failed to find any plans for goal " ++ goal ++
       " given actions " ++ render_actions st.actions))

/-- Well-formedness of a hypothesis: the shapes and modalities the engine's
dispatch recognises (the spec's data model). -/
def ValidHyp : Hyp → Prop
  | .none => True
  | .pair modality _ => modality = "eventually" ∨ modality = "never"
  | .triple _ modality _ =>
      modality = "next" ∨ modality = "not next" ∨
      modality = "eventually" ∨ modality = "never"

instance : DecidablePred ValidHyp := fun h => by
  cases h <;> unfold ValidHyp <;> infer_instance

/-- All four probability parameters lie in [0,1]. -/
def ParamsValid (P : Params) : Prop :=
  0 ≤ P.prob_non_compliance ∧ P.prob_non_compliance ≤ 1 ∧
  0 ≤ P.prob_viol_detection ∧ P.prob_viol_detection ≤ 1 ∧
  0 ≤ P.prob_sanctioning ∧ P.prob_sanctioning ≤ 1 ∧
  0 ≤ P.prob_random_punishment ∧ P.prob_random_punishment ≤ 1

instance : DecidablePred ParamsValid := fun P => by
  unfold ParamsValid; infer_instance

/-- The source's default parameters: `prob_non_compliance=0.1`,
`prob_viol_detection=0.5`, `prob_sanctioning=0.2`, `prob_random_punishment=0.01`. -/
def defaultParams : Params :=
  { prob_non_compliance := 1/10
    prob_viol_detection := 1/2
    prob_sanctioning := 1/5
    prob_random_punishment := 1/100 }

/-- The mass map of the claim C1 example: A ↦ 5, B ↦ 5, C ↦ 3, D ↦ 1. -/
def massABCD (s : String) : ℚ :=
  if s = "A" then 5 else if s = "B" then 5 else if s = "C" then 3 else 1

/-- Claim C1: evaluating `most_probable_norms` on masses A:5, B:5, C:3, D:1
with requested count 1 (for either descending tie order the external sort may
produce) returns a single hypothesis with effective count 1 — the tie at the
cutoff is dropped, contradicting the claimed result of both A and B with
effective count 2.  The loop's guard `i > topN` skips the tie check at the
cutoff index itself. -/
theorem C1_top_tie_dropped_eval :
    most_probable_norms massABCD ["A", "B", "C", "D"] 1 = (["A"], 1) ∧
    most_probable_norms massABCD ["B", "A", "C", "D"] 1 = (["B"], 1) := by
  constructor <;> rfl

/-- Claim C5: evaluating the trace-splitting code.  The spec's example
`['a','b','d','!']` does yield clean path `['a','b','d']` and sanction set
`{3}`, but on `['a','!','!','b','!']` the code records sanction positions
`{1, 3}`: the final marker is mapped to position 3, although the node emitted
immediately before it (`'b'`) has clean-path index 1, so the claimed mapping
requires position 2.  After a collapsed pair of consecutive markers,
`index - len(sanction_indices)` under-corrects every later marker. -/
theorem C5_sanction_position_drift_eval :
    parse_obs ["a", "b", "d", "!"] = (["a", "b", "d"], ({3} : Finset ℕ)) ∧
    parse_obs ["a", "!", "!", "b", "!"] = (["a", "b"], ({1, 3} : Finset ℕ)) := by
  constructor <;> decide

/-- Claim C4: for `NoNorm`, the sanction-based likelihood of a clean path of
length `n` with `s` sanctioned positions (`s ≤ n`) is
`(1-p_random)^(n-s) * p_random^s`; the particular cases `s = 0` and `s = n`
are instances. -/
theorem C4_no_norm_sanction_likelihood (P : Params) (obs_path : List String)
    (sanction_indices : Finset ℕ)
    (hcard : sanction_indices.card ≤ obs_path.length) :
    LikelihoodUsingSanctions P obs_path sanction_indices Hyp.none =
      .ok ((1 - P.prob_random_punishment) ^ (obs_path.length - sanction_indices.card) *
           P.prob_random_punishment ^ sanction_indices.card) := by
  have hz : (1 - P.prob_random_punishment) ^
        ((obs_path.length : ℤ) - (sanction_indices.card : ℤ)) =
      (1 - P.prob_random_punishment) ^ (obs_path.length - sanction_indices.card) := by
    rw [show ((obs_path.length : ℤ) - (sanction_indices.card : ℤ)) =
          ((obs_path.length - sanction_indices.card : ℕ) : ℤ) by omega]
    exact zpow_natCast _ _
  have hdef : LikelihoodUsingSanctions P obs_path sanction_indices Hyp.none =
      Except.ok ((1 - P.prob_random_punishment) ^
          ((obs_path.length : ℤ) - (sanction_indices.card : ℤ)) *
        P.prob_random_punishment ^ sanction_indices.card) := rfl
  rw [hdef, hz]

/-- Witness for C4 at path `["a","b"]` with sanction set `{1}`. -/
theorem C4_no_norm_sanction_likelihood_witness :
    (({1} : Finset ℕ).card ≤ (["a", "b"] : List String).length) ∧
    LikelihoodUsingSanctions defaultParams ["a", "b"] {1} Hyp.none =
      .ok ((1 - defaultParams.prob_random_punishment) ^
             ((["a", "b"] : List String).length - ({1} : Finset ℕ).card) *
           defaultParams.prob_random_punishment ^ ({1} : Finset ℕ).card) :=
  ⟨by decide, C4_no_norm_sanction_likelihood defaultParams ["a", "b"] {1} (by decide)⟩

instance {ε α : Type} [DecidableEq ε] [DecidableEq α] : DecidableEq (Except ε α) := by
  intro a b
  cases a <;> cases b <;>
    first
      | (apply isFalse; intro h; exact Except.noConfusion h)
      | (rename_i x y
         exact if h : x = y then isTrue (by rw [h]) else
           isFalse (fun hc => h (by injection hc)))

/-- Claim C6, counterexample: for `(never, "b")` on the path `["a"]` (which
contains no `"b"`) with no sanctions, the code returns `1 - p_random = 99/100`,
not the claimed per-position factor
`(1-p_detect*p_sanction)*(1-p_random) = 891/1000`.  Positions outside the
(empty) violation set take the plain no-violation factor. -/
theorem C6_factor_counterexample :
    LikelihoodUsingSanctions defaultParams ["a"] ∅ (Hyp.pair "never" "b") ≠
      .ok ((1 - defaultParams.prob_viol_detection * defaultParams.prob_sanctioning) *
           (1 - defaultParams.prob_random_punishment)) := by
  have hset : ((((["a"] : List String).enum.filter (fun p => p.2 == "b")).map
      Prod.fst).toFinset : Finset ℕ) = ∅ := rfl
  have hdef : LikelihoodUsingSanctions defaultParams ["a"] ∅ (Hyp.pair "never" "b") =
      Except.ok (∏ i ∈ Finset.range 1,
        if i ∈ ((((["a"] : List String).enum.filter (fun p => p.2 == "b")).map
            Prod.fst).toFinset : Finset ℕ) then
          (if i + 1 ∈ (∅ : Finset ℕ) then
            defaultParams.prob_random_punishment +
              (1 - defaultParams.prob_random_punishment) *
                defaultParams.prob_viol_detection * defaultParams.prob_sanctioning
          else
            (1 - defaultParams.prob_viol_detection * defaultParams.prob_sanctioning) *
              (1 - defaultParams.prob_random_punishment))
        else
          (if i + 1 ∈ (∅ : Finset ℕ) then defaultParams.prob_random_punishment
           else 1 - defaultParams.prob_random_punishment)) := rfl
  intro heq
  rw [hdef] at heq
  simp only [hset, Finset.prod_range_one, Finset.not_mem_empty, if_false] at heq
  have h2 := Except.ok.inj heq
  norm_num [defaultParams] at h2

/-- Claim C6 as amended: for `(never, X)` and a clean path with no occurrence
of `X`, the violation index set is empty and the sanction-based likelihood is
the product, over the path positions, of `1 - p_random` for every
non-sanctioned position and `p_random` for every sanctioned one. -/
theorem C6_never_no_occurrence (P : Params) (node : String) (obs_path : List String)
    (sanction_indices : Finset ℕ) (hno : ∀ item ∈ obs_path, item ≠ node) :
    ∃ vi, violation_indices (Hyp.pair "never" node) = .ok vi ∧
      vi obs_path = ∅ ∧
      LikelihoodUsingSanctions P obs_path sanction_indices (Hyp.pair "never" node) =
        .ok (∏ i ∈ Finset.range obs_path.length,
          if i + 1 ∈ sanction_indices then P.prob_random_punishment
          else 1 - P.prob_random_punishment) := by
  have hvi : violation_indices (Hyp.pair "never" node) =
      .ok (fun path => ((path.enum.filter (fun p => p.2 == node)).map Prod.fst).toFinset) := by
    rfl
  have hempty :
      (((obs_path.enum.filter (fun p => p.2 == node)).map Prod.fst).toFinset : Finset ℕ) = ∅ := by
    have hnil : obs_path.enum.filter (fun p => p.2 == node) = [] := by
      apply List.filter_eq_nil_iff.mpr
      intro p hp
      have hmem : p.2 ∈ obs_path := by
        rcases p with ⟨i, a⟩
        have hsome := (List.mk_mem_enum_iff_getElem?).mp hp
        obtain ⟨hlt, hget⟩ := List.getElem?_eq_some.mp hsome
        exact hget ▸ List.getElem_mem hlt
      simpa using hno p.2 hmem
    rw [hnil]
    rfl
  have hdef : LikelihoodUsingSanctions P obs_path sanction_indices (Hyp.pair "never" node) =
      Except.ok (∏ i ∈ Finset.range obs_path.length,
        if i ∈ (((obs_path.enum.filter (fun p => p.2 == node)).map Prod.fst).toFinset : Finset ℕ) then
          (if i + 1 ∈ sanction_indices then
            P.prob_random_punishment +
              (1 - P.prob_random_punishment) * P.prob_viol_detection * P.prob_sanctioning
          else
            (1 - P.prob_viol_detection * P.prob_sanctioning) *
              (1 - P.prob_random_punishment))
        else
          (if i + 1 ∈ sanction_indices then P.prob_random_punishment
           else 1 - P.prob_random_punishment)) := rfl
  refine ⟨_, hvi, hempty, ?_⟩
  rw [hdef]
  congr 1
  refine Finset.prod_congr rfl (fun i _ => ?_)
  rw [hempty]
  simp

/-- Witness for C6 at `(never, "b")`, path `["a","c"]`, sanction set `{1}`. -/
theorem C6_never_no_occurrence_witness :
    (∀ item ∈ (["a", "c"] : List String), item ≠ "b") ∧
    (∃ vi, violation_indices (Hyp.pair "never" "b") = .ok vi ∧
      vi ["a", "c"] = ∅ ∧
      LikelihoodUsingSanctions defaultParams ["a", "c"] {1} (Hyp.pair "never" "b") =
        .ok (∏ i ∈ Finset.range (["a", "c"] : List String).length,
          if i + 1 ∈ ({1} : Finset ℕ) then defaultParams.prob_random_punishment
          else 1 - defaultParams.prob_random_punishment)) :=
  ⟨by decide, C6_never_no_occurrence defaultParams "b" ["a", "c"] {1} (by decide)⟩

/-- Claim C7: for `(context, never, node)` the violation index set is computed
from the first occurrence of the context among all positions except the final
one (the set is empty when there is none), collecting the occurrences of the
node strictly after it, with indices counted relative to that suffix: `j` is
in the set exactly when the absolute position `fc + 1 + j` holds the node,
where `fc` is the first-context index. -/
theorem C7_conditional_never_relative_indices (context_node node : String)
    (path : List String) :
    ∃ vi, violation_indices (Hyp.triple context_node "never" node) = .ok vi ∧
      ∀ j : ℕ,
        (j ∈ vi path ↔
          ((path.dropLast.findIdx? (fun item => item == context_node)).getD path.length)
              + 1 + j < path.length ∧
            path.getD (((path.dropLast.findIdx? (fun item => item == context_node)).getD
              path.length) + 1 + j) "" = node) := by
  have hvi : violation_indices (Hyp.triple context_node "never" node) =
      .ok (fun path =>
        (((path.drop
              (((path.dropLast.findIdx? (fun item => item == context_node)).getD
                  path.length) + 1)).enum.filter
            (fun p => p.2 == node)).map Prod.fst).toFinset) := rfl
  refine ⟨_, hvi, fun j => ?_⟩
  set fc := (path.dropLast.findIdx? (fun item => item == context_node)).getD path.length with hfc
  constructor
  · intro hj
    simp only [List.mem_toFinset, List.mem_map, List.mem_filter] at hj
    rcases hj with ⟨⟨i, a⟩, ⟨hmem, heq⟩, hfst⟩
    have hget := (List.mk_mem_enum_iff_getElem?).mp hmem
    rw [List.getElem?_drop] at hget
    obtain ⟨hlt, hgetv⟩ := List.getElem?_eq_some.mp hget
    have hval : path.getD (fc + 1 + i) "" = a := by
      simp [List.getD_eq_getElem?_getD, hget]
    simp only at hfst
    subst hfst
    refine ⟨hlt, ?_⟩
    rw [hval]
    simpa using heq
  · rintro ⟨hlt, hval⟩
    simp only [List.mem_toFinset, List.mem_map, List.mem_filter]
    refine ⟨(j, node), ⟨?_, by simp⟩, rfl⟩
    rw [List.mk_mem_enum_iff_getElem?, List.getElem?_drop]
    rw [List.getD_eq_getElem?_getD] at hval
    rcases h : path[fc + 1 + j]? with _ | b
    · rw [List.getElem?_eq_none_iff] at h
      omega
    · rw [h] at hval
      simp only [Option.getD_some] at hval
      rw [hval]

lemma split_sanctions_clean (obs : List String) (index : ℕ) (sancs : Finset ℕ)
    (acc : List String) :
    (split_sanctions obs index sancs acc).1 =
      acc ++ ((obs.filter (fun t => t ≠ "!")).map (fun t => t.toList.map Char.toString)).flatten := by
  induction obs generalizing index sancs acc with
  | nil => simp [split_sanctions]
  | cons t rest ih =>
    by_cases h : t = "!"
    · simp [split_sanctions, h, ih]
    · simp [split_sanctions, h, ih]

lemma char_toString_length (c : Char) : (Char.toString c).length = 1 := rfl

lemma single_char_map (t : String) (h : t.length = 1) :
    t.data.map Char.toString = [t] := by
  obtain ⟨c, hc⟩ := List.length_eq_one.mp (show t.data.length = 1 from h)
  have ht : t = Char.toString c := String.ext (by rw [hc]; rfl)
  rw [hc, ht]
  rfl

lemma flatten_single_char (l : List String) (h : ∀ t ∈ l, t.length = 1) :
    (l.map (fun t => t.toList.map Char.toString)).flatten = l := by
  induction l with
  | nil => rfl
  | cons t rest ih =>
    have h1 : t.length = 1 := h t (List.mem_cons_self _ _)
    have hrest : ∀ u ∈ rest, u.length = 1 := fun u hu => h u (List.mem_cons_of_mem _ hu)
    have hs : t.toList.map Char.toString = [t] := single_char_map t h1
    simp only [List.map_cons, List.flatten_cons, hs, ih hrest, List.singleton_append]

/-- Claim C10: each non-marker trace token is appended to the clean path
character by character (Python list-plus-string concatenation), so the clean
path is the concatenation of the character-splits of the non-marker tokens,
and it equals the claimed clean path (the non-marker tokens themselves)
exactly when every non-marker token is a single character. -/
theorem C10_clean_path_char_concat (obs : List String) :
    (parse_obs obs).1 =
      ((obs.filter (fun t => t ≠ "!")).map (fun t => t.toList.map Char.toString)).flatten ∧
    ((parse_obs obs).1 = obs.filter (fun t => t ≠ "!") ↔
      ∀ t ∈ obs, t ≠ "!" → t.length = 1) := by
  have hflat : (parse_obs obs).1 =
      ((obs.filter (fun t => t ≠ "!")).map (fun t => t.toList.map Char.toString)).flatten := by
    have h0 := split_sanctions_clean obs 0 ∅ []
    rw [List.nil_append] at h0
    exact h0
  refine ⟨hflat, ?_, ?_⟩
  · intro heq t htmem htne
    have htfil : t ∈ obs.filter (fun t => t ≠ "!") := by
      simp [List.mem_filter, htmem, htne]
    rw [← heq, hflat] at htfil
    rcases List.mem_flatten.mp htfil with ⟨l, hl, htl⟩
    rcases List.mem_map.mp hl with ⟨u, _, hu⟩
    rw [← hu] at htl
    rcases List.mem_map.mp htl with ⟨c, _, hc⟩
    rw [← hc]
    exact char_toString_length c
  · intro hall
    rw [hflat]
    apply flatten_single_char
    intro t ht
    rw [List.mem_filter] at ht
    exact hall t ht.1 (by simpa using ht.2)

lemma length_filter_add_length_filter_not {α : Type} (l : List α) (p : α → Bool) :
    (l.filter p).length + (l.filter (fun a => !(p a))).length = l.length := by
  induction l with
  | nil => rfl
  | cons a t ih =>
    by_cases h : p a = true <;> simp [List.filter_cons, h, ← ih] <;> omega

lemma valid_is_norm_breaching (hypothesis : Hyp) (hv : ValidHyp hypothesis)
    (hne : hypothesis ≠ Hyp.none) :
    ∃ B, is_norm_breaching hypothesis = .ok B := by
  cases hypothesis with
  | none => exact absurd rfl hne
  | pair modality node =>
    rcases hv with rfl | rfl <;> exact ⟨_, rfl⟩
  | triple context_node modality node =>
    rcases hv with rfl | rfl | rfl | rfl <;> exact ⟨_, rfl⟩

/-- Claim C3: for a clean path contained in at least one cached plan path,
`LikelihoodUsingPlans` returns: for `NoNorm`, (number of plan paths containing
the path) / (total plan count); for a well-formed concrete hypothesis with
breach predicate `B`, `p_non_compliance` times that ratio when every plan path
breaches, and otherwise
`(1-p_non_compliance) * (consistent-and-compliant count / compliant count)
 + p_non_compliance` times that ratio. -/
theorem C3_plan_likelihood_formula (P : Params) (plan_paths : List (List String))
    (obs_path : List String) (hypothesis : Hyp)
    (hv : ValidHyp hypothesis) (hne : hypothesis ≠ Hyp.none)
    (hcont : ∃ q ∈ plan_paths, is_sub_list obs_path q = true) :
    LikelihoodUsingPlans P plan_paths obs_path Hyp.none =
      .ok (((plan_paths.filter (fun q => is_sub_list obs_path q)).length : ℚ) /
           (plan_paths.length : ℚ)) ∧
    ∃ B, is_norm_breaching hypothesis = .ok B ∧
      LikelihoodUsingPlans P plan_paths obs_path hypothesis =
        .ok (if ∀ q ∈ plan_paths, B q = true then
              P.prob_non_compliance *
                (((plan_paths.filter (fun q => is_sub_list obs_path q)).length : ℚ) /
                 (plan_paths.length : ℚ))
            else
              (1 - P.prob_non_compliance) *
                (((plan_paths.filter
                      (fun q => is_sub_list obs_path q && !(B q))).length : ℚ) /
                 ((plan_paths.filter (fun q => !(B q))).length : ℚ)) +
              P.prob_non_compliance *
                (((plan_paths.filter (fun q => is_sub_list obs_path q)).length : ℚ) /
                 (plan_paths.length : ℚ))) := by
  obtain ⟨q0, hq0, hq0sub⟩ := hcont
  have hlen0 : ¬(plan_paths.length = 0) := by
    intro h
    rw [List.length_eq_zero] at h
    subst h
    simp at hq0
  have hq0fil : q0 ∈ plan_paths.filter (fun q => is_sub_list obs_path q) :=
    List.mem_filter.mpr ⟨hq0, hq0sub⟩
  have hcont0 : ¬((plan_paths.filter (fun q => is_sub_list obs_path q)).length = 0) := by
    intro h
    rw [List.length_eq_zero] at h
    rw [h] at hq0fil
    simp at hq0fil
  obtain ⟨B, hB⟩ := valid_is_norm_breaching hypothesis hv hne
  have hcompl :
      ((plan_paths.filter B).length : ℚ) + ((plan_paths.filter (fun q => !(B q))).length : ℚ) =
        (plan_paths.length : ℚ) := by
    exact_mod_cast congrArg (Nat.cast (R := ℚ))
      (length_filter_add_length_filter_not plan_paths B)
  have hallzero :
      ((plan_paths.length : ℚ) - ((plan_paths.filter B).length : ℚ) = 0) ↔
        (∀ q ∈ plan_paths, B q = true) := by
    rw [sub_eq_zero]
    constructor
    · intro h
      have hzero : ((plan_paths.filter (fun q => !(B q))).length : ℚ) = 0 := by
        linarith [hcompl]
      have hnil : plan_paths.filter (fun q => !(B q)) = [] := by
        rw [← List.length_eq_zero]
        exact_mod_cast hzero
      intro q hq
      by_contra hqB
      have hmem : q ∈ plan_paths.filter (fun q => !(B q)) :=
        List.mem_filter.mpr ⟨hq, by simp [hqB]⟩
      rw [hnil] at hmem
      simp at hmem
    · intro h
      have hself : plan_paths.filter B = plan_paths :=
        List.filter_eq_self.mpr h
      rw [hself]
  have hCcount :
      ((plan_paths.length : ℚ) - ((plan_paths.filter B).length : ℚ)) =
        ((plan_paths.filter (fun q => !(B q))).length : ℚ) := by
    linarith [hcompl]
  have hSCcount :
      ((plan_paths.filter (fun q => is_sub_list obs_path q)).length : ℚ) -
          (((plan_paths.filter (fun q => is_sub_list obs_path q)).filter B).length : ℚ) =
        ((plan_paths.filter (fun q => is_sub_list obs_path q && !(B q))).length : ℚ) := by
    have hc := length_filter_add_length_filter_not
      (plan_paths.filter (fun q => is_sub_list obs_path q)) B
    have hcq : ((plan_paths.filter (fun q => is_sub_list obs_path q)).filter B).length +
        ((plan_paths.filter (fun q => is_sub_list obs_path q)).filter
          (fun q => !(B q))).length =
        (plan_paths.filter (fun q => is_sub_list obs_path q)).length := hc
    have hcast : (((plan_paths.filter (fun q => is_sub_list obs_path q)).filter B).length : ℚ) +
        (((plan_paths.filter (fun q => is_sub_list obs_path q)).filter
          (fun q => !(B q))).length : ℚ) =
        ((plan_paths.filter (fun q => is_sub_list obs_path q)).length : ℚ) := by
      exact_mod_cast congrArg (Nat.cast (R := ℚ)) hcq
    have horder : (plan_paths.filter (fun q => is_sub_list obs_path q)).filter
          (fun q => !(B q)) =
        plan_paths.filter (fun q => is_sub_list obs_path q && !(B q)) := by
      rw [List.filter_filter]
      apply List.filter_congr
      intro a _
      exact Bool.and_comm _ _
    rw [horder] at hcast
    linarith [hcast]
  constructor
  · unfold LikelihoodUsingPlans
    rw [if_neg hlen0, if_neg hcont0]
  · refine ⟨B, hB, ?_⟩
    unfold LikelihoodUsingPlans
    rw [if_neg hlen0, if_neg hcont0]
    cases hypothesis with
    | none => exact absurd rfl hne
    | pair modality node =>
      dsimp only
      rw [hB]
      dsimp only
      by_cases hall : ∀ q ∈ plan_paths, B q = true
      · rw [if_pos (hallzero.mpr hall), if_pos hall]
      · rw [if_neg (fun h => hall (hallzero.mp h)), if_neg hall]
        congr 1
        rw [hSCcount, hCcount, mul_div_assoc]
    | triple context_node modality node =>
      dsimp only
      rw [hB]
      dsimp only
      by_cases hall : ∀ q ∈ plan_paths, B q = true
      · rw [if_pos (hallzero.mpr hall), if_pos hall]
      · rw [if_neg (fun h => hall (hallzero.mp h)), if_neg hall]
        congr 1
        rw [hSCcount, hCcount, mul_div_assoc]

/-- Witness for C3: plans `[["a","b"],["b","c"]]`, observation `["b"]`,
hypothesis `(never, "c")`. -/
theorem C3_plan_likelihood_formula_witness :
    ValidHyp (Hyp.pair "never" "c") ∧ (Hyp.pair "never" "c") ≠ Hyp.none ∧
    (∃ q ∈ ([["a", "b"], ["b", "c"]] : List (List String)),
      is_sub_list ["b"] q = true) ∧
    (LikelihoodUsingPlans defaultParams [["a", "b"], ["b", "c"]] ["b"] Hyp.none =
      .ok (((([["a", "b"], ["b", "c"]] : List (List String)).filter
              (fun q => is_sub_list ["b"] q)).length : ℚ) /
           (([["a", "b"], ["b", "c"]] : List (List String)).length : ℚ)) ∧
    ∃ B, is_norm_breaching (Hyp.pair "never" "c") = .ok B ∧
      LikelihoodUsingPlans defaultParams [["a", "b"], ["b", "c"]] ["b"]
          (Hyp.pair "never" "c") =
        .ok (if ∀ q ∈ ([["a", "b"], ["b", "c"]] : List (List String)), B q = true then
              defaultParams.prob_non_compliance *
                (((([["a", "b"], ["b", "c"]] : List (List String)).filter
                      (fun q => is_sub_list ["b"] q)).length : ℚ) /
                 (([["a", "b"], ["b", "c"]] : List (List String)).length : ℚ))
            else
              (1 - defaultParams.prob_non_compliance) *
                (((([["a", "b"], ["b", "c"]] : List (List String)).filter
                      (fun q => is_sub_list ["b"] q && !(B q))).length : ℚ) /
                 ((([["a", "b"], ["b", "c"]] : List (List String)).filter
                      (fun q => !(B q))).length : ℚ)) +
              defaultParams.prob_non_compliance *
                (((([["a", "b"], ["b", "c"]] : List (List String)).filter
                      (fun q => is_sub_list ["b"] q)).length : ℚ) /
                 (([["a", "b"], ["b", "c"]] : List (List String)).length : ℚ)))) :=
  ⟨by decide, by decide, ⟨["a", "b"], by decide⟩,
   C3_plan_likelihood_formula defaultParams [["a", "b"], ["b", "c"]] ["b"]
     (Hyp.pair "never" "c") (by decide) (by decide) ⟨["a", "b"], by decide⟩⟩

lemma valid_violation_indices (hypothesis : Hyp) (hv : ValidHyp hypothesis)
    (hne : hypothesis ≠ Hyp.none) :
    ∃ v, violation_indices hypothesis = .ok v := by
  cases hypothesis with
  | none => exact absurd rfl hne
  | pair modality node =>
    rcases hv with rfl | rfl <;> exact ⟨_, rfl⟩
  | triple context_node modality node =>
    rcases hv with rfl | rfl | rfl | rfl <;> exact ⟨_, rfl⟩

lemma sanctions_ok (P : Params) (obs_path : List String) (sanction_indices : Finset ℕ)
    (hypothesis : Hyp) (hv : ValidHyp hypothesis) :
    ∃ x, LikelihoodUsingSanctions P obs_path sanction_indices hypothesis = .ok x := by
  cases hypothesis with
  | none => exact ⟨_, rfl⟩
  | pair modality node =>
    rcases hv with rfl | rfl <;> exact ⟨_, rfl⟩
  | triple context_node modality node =>
    rcases hv with rfl | rfl | rfl | rfl <;> exact ⟨_, rfl⟩

lemma plans_error_of_not_contained (P : Params) (plan_paths : List (List String))
    (obs_path : List String) (hypothesis : Hyp)
    (hne : plan_paths ≠ [])
    (hnosub : ∀ q ∈ plan_paths, is_sub_list obs_path q = false) :
    LikelihoodUsingPlans P plan_paths obs_path hypothesis =
      .error (.valueError
        "Assumption violated: path cannot be generated for goal given plans") := by
  unfold LikelihoodUsingPlans
  have hlen : ¬(plan_paths.length = 0) := by
    simpa [List.length_eq_zero] using hne
  rw [if_neg hlen]
  have hfil : plan_paths.filter (fun path => is_sub_list obs_path path) = [] := by
    apply List.filter_eq_nil_iff.mpr
    intro q hq
    simp [hnosub q hq]
  rw [hfil]
  simp

/-- The sanction-based odds ratio of a hypothesis against the `NoNorm`
baseline (hypothesis sanction likelihood divided by the baseline sanction
likelihood), read off the engine's results. -/
def sanction_ratio (P : Params) (obs_path : List String) (sanction_indices : Finset ℕ)
    (hypothesis : Hyp) : ℚ :=
  ((LikelihoodUsingSanctions P obs_path sanction_indices hypothesis).toOption.getD 0) /
  ((LikelihoodUsingSanctions P obs_path sanction_indices Hyp.none).toOption.getD 0)

lemma update_store_ok_of_all (f : Hyp × ℚ → Except PyErr (Hyp × ℚ))
    (g : Hyp × ℚ → Hyp × ℚ) (store : List (Hyp × ℚ))
    (hfg : ∀ hm ∈ store, f hm = .ok (g hm)) :
    update_store f store = .ok (store.map g) := by
  induction store with
  | nil => rfl
  | cons hm rest ih =>
    show (match f hm with
      | .error e => Except.error e
      | .ok x =>
        match update_store f rest with
        | .error e => .error e
        | .ok xs => .ok (x :: xs)) = _
    rw [hfg hm (List.mem_cons_self _ _), ih (fun x hx => hfg x (List.mem_cons_of_mem _ hx))]
    rfl

lemma hypothesis_update_no_plans (P : Params) (plan_paths : List (List String))
    (obs_without_sanctions : List String) (sanction_indices : Finset ℕ)
    (nns : ℚ) (hm : Hyp × ℚ) (hv : ValidHyp hm.1)
    (hnns : LikelihoodUsingSanctions P obs_without_sanctions sanction_indices Hyp.none =
      .ok nns)
    (hnns0 : nns ≠ 0)
    (hne : plan_paths ≠ [])
    (hnosub : ∀ q ∈ plan_paths, is_sub_list obs_without_sanctions q = false) :
    hypothesis_update P plan_paths obs_without_sanctions sanction_indices nns
        Option.none hm =
      .ok (hm.1, if hm.1 = Hyp.none then hm.2
                 else hm.2 * sanction_ratio P obs_without_sanctions sanction_indices hm.1) := by
  unfold hypothesis_update
  by_cases h0 : hm.1 = Hyp.none
  · rw [if_pos h0, if_pos h0]
  · rw [if_neg h0, if_neg h0]
    obtain ⟨ls, hls⟩ := sanctions_ok P obs_without_sanctions sanction_indices hm.1 hv
    rw [hls]
    dsimp only
    unfold pydiv
    rw [if_neg hnns0]
    dsimp only
    rw [plans_error_of_not_contained P plan_paths obs_without_sanctions hm.1 hne hnosub]
    dsimp only
    unfold sanction_ratio
    rw [hls, hnns]
    rfl

/-- Claim C2: when the clean path is a contiguous sub-sequence of no cached
plan path, `UpdateOddsRatioVsNoNorm` still multiplies every non-`NoNorm`
hypothesis's mass by its sanction-based ratio, applies no plan-based factor to
any hypothesis, and does not raise, so `UpdateSet` continues with the
remaining traces from the updated store.  (Hypotheses: the plan corpus is
non-empty, as the constructor guarantees; the suite's hypotheses are
well-formed; `p_random` lies strictly between 0 and 1, as the default
parameters do, so the sanction baseline is nonzero.) -/
theorem C2_plan_evidence_skipped (P : Params) (plan_paths : List (List String))
    (obs : List String) (store : List (Hyp × ℚ)) (rest : List (List String))
    (hne : plan_paths ≠ [])
    (hnosub : ∀ q ∈ plan_paths, is_sub_list (parse_obs obs).1 q = false)
    (hvalid : ∀ hm ∈ store, ValidHyp hm.1)
    (hpr0 : 0 < P.prob_random_punishment) (hpr1 : P.prob_random_punishment < 1) :
    UpdateOddsRatioVsNoNorm P plan_paths store obs =
      .ok (store.map (fun hm =>
        (hm.1, if hm.1 = Hyp.none then hm.2
               else hm.2 * sanction_ratio P (parse_obs obs).1 (parse_obs obs).2 hm.1))) ∧
    UpdateSet P plan_paths (obs :: rest) store =
      UpdateSet P plan_paths rest
        (store.map (fun hm =>
          (hm.1, if hm.1 = Hyp.none then hm.2
                 else hm.2 * sanction_ratio P (parse_obs obs).1 (parse_obs obs).2 hm.1))) := by
  have hnns : LikelihoodUsingSanctions P (parse_obs obs).1 (parse_obs obs).2 Hyp.none =
      .ok ((1 - P.prob_random_punishment) ^
            (((parse_obs obs).1.length : ℤ) - (((parse_obs obs).2.card : ℕ) : ℤ)) *
           P.prob_random_punishment ^ ((parse_obs obs).2.card : ℕ)) := rfl
  have hnns0 : ((1 - P.prob_random_punishment) ^
        (((parse_obs obs).1.length : ℤ) - (((parse_obs obs).2.card : ℕ) : ℤ)) *
       P.prob_random_punishment ^ ((parse_obs obs).2.card : ℕ)) ≠ 0 := by
    apply mul_ne_zero
    · exact zpow_ne_zero _ (by intro h; rw [sub_eq_zero] at h; exact absurd h.symm (ne_of_lt hpr1))
    · exact pow_ne_zero _ (ne_of_gt hpr0)
  have hupd : UpdateOddsRatioVsNoNorm P plan_paths store obs =
      .ok (store.map (fun hm =>
        (hm.1, if hm.1 = Hyp.none then hm.2
               else hm.2 * sanction_ratio P (parse_obs obs).1 (parse_obs obs).2 hm.1))) := by
    unfold UpdateOddsRatioVsNoNorm
    dsimp only
    rw [hnns]
    dsimp only
    rw [plans_error_of_not_contained P plan_paths (parse_obs obs).1 Hyp.none hne hnosub]
    dsimp only
    exact update_store_ok_of_all _ _ store (fun hm hmem =>
      hypothesis_update_no_plans P plan_paths (parse_obs obs).1 (parse_obs obs).2 _ hm
        (hvalid hm hmem) hnns hnns0 hne hnosub)
  refine ⟨hupd, ?_⟩
  show (match UpdateOddsRatioVsNoNorm P plan_paths store obs with
    | .error e => Except.error e
    | .ok store' => UpdateSet P plan_paths rest store') = _
  rw [hupd]

/-- Witness for C2: plans `[["a","b"]]`, trace `["c"]` (not contained in any
plan path), store `[(None, 1), ((never, "x"), 2)]`. -/
theorem C2_plan_evidence_skipped_witness :
    (([["a", "b"]] : List (List String)) ≠ []) ∧
    (∀ q ∈ ([["a", "b"]] : List (List String)),
      is_sub_list (parse_obs ["c"]).1 q = false) ∧
    (∀ hm ∈ ([(Hyp.none, (1 : ℚ)), (Hyp.pair "never" "x", 2)] : List (Hyp × ℚ)),
      ValidHyp hm.1) ∧
    (0 < defaultParams.prob_random_punishment) ∧
    (defaultParams.prob_random_punishment < 1) ∧
    (UpdateOddsRatioVsNoNorm defaultParams [["a", "b"]]
        [(Hyp.none, (1 : ℚ)), (Hyp.pair "never" "x", 2)] ["c"] =
      .ok (([(Hyp.none, (1 : ℚ)), (Hyp.pair "never" "x", 2)] : List (Hyp × ℚ)).map (fun hm =>
        (hm.1, if hm.1 = Hyp.none then hm.2
               else hm.2 *
                 sanction_ratio defaultParams (parse_obs ["c"]).1 (parse_obs ["c"]).2 hm.1))) ∧
    UpdateSet defaultParams [["a", "b"]] (["c"] :: [])
        [(Hyp.none, (1 : ℚ)), (Hyp.pair "never" "x", 2)] =
      UpdateSet defaultParams [["a", "b"]] []
        (([(Hyp.none, (1 : ℚ)), (Hyp.pair "never" "x", 2)] : List (Hyp × ℚ)).map (fun hm =>
          (hm.1, if hm.1 = Hyp.none then hm.2
                 else hm.2 *
                   sanction_ratio defaultParams (parse_obs ["c"]).1 (parse_obs ["c"]).2 hm.1)))) :=
  ⟨by decide, by decide, by decide,
   by norm_num [defaultParams], by norm_num [defaultParams],
   C2_plan_evidence_skipped defaultParams [["a", "b"]] ["c"]
     [(Hyp.none, (1 : ℚ)), (Hyp.pair "never" "x", 2)] []
     (by decide) (by decide) (by decide)
     (by norm_num [defaultParams]) (by norm_num [defaultParams])⟩

lemma sanction_prod_nonneg (P : Params) (hP : ParamsValid P)
    (path : List String) (sancs vs : Finset ℕ) :
    0 ≤ ∏ i ∈ Finset.range path.length,
      (if i ∈ vs then
        (if i + 1 ∈ sancs then
          P.prob_random_punishment +
            (1 - P.prob_random_punishment) * P.prob_viol_detection * P.prob_sanctioning
        else
          (1 - P.prob_viol_detection * P.prob_sanctioning) *
            (1 - P.prob_random_punishment))
      else
        (if i + 1 ∈ sancs then P.prob_random_punishment
         else 1 - P.prob_random_punishment)) := by
  obtain ⟨pnc0, pnc1, pd0, pd1, ps0, ps1, pr0, pr1⟩ := hP
  apply Finset.prod_nonneg
  intro i _
  have hds : P.prob_viol_detection * P.prob_sanctioning ≤ 1 :=
    mul_le_one₀ pd1 ps0 ps1
  split_ifs
  · exact add_nonneg pr0 (mul_nonneg (mul_nonneg (by linarith) pd0) ps0)
  · exact mul_nonneg (by linarith) (by linarith)
  · exact pr0
  · linarith

lemma LikelihoodUsingSanctions_ok_nonneg (P : Params) (hP : ParamsValid P)
    (obs_path : List String) (sanction_indices : Finset ℕ) (hypothesis : Hyp) (v : ℚ)
    (hok : LikelihoodUsingSanctions P obs_path sanction_indices hypothesis = .ok v) :
    0 ≤ v := by
  obtain ⟨pnc0, pnc1, pd0, pd1, ps0, ps1, pr0, pr1⟩ := hP
  cases hypothesis with
  | none =>
    have h2 : Except.ok (ε := PyErr)
        ((1 - P.prob_random_punishment) ^
          ((obs_path.length : ℤ) - (sanction_indices.card : ℤ)) *
         P.prob_random_punishment ^ sanction_indices.card) = .ok v := hok
    rw [← Except.ok.inj h2]
    exact mul_nonneg (zpow_nonneg (by linarith) _) (pow_nonneg pr0 _)
  | pair modality node =>
    unfold LikelihoodUsingSanctions at hok
    dsimp only at hok
    cases hvi : violation_indices (Hyp.pair modality node) with
    | error e =>
      rw [hvi] at hok
      exact absurd hok (by simp)
    | ok vi =>
      rw [hvi] at hok
      dsimp only at hok
      rw [← Except.ok.inj hok]
      exact sanction_prod_nonneg P
        ⟨pnc0, pnc1, pd0, pd1, ps0, ps1, pr0, pr1⟩ obs_path sanction_indices (vi obs_path)
  | triple context_node modality node =>
    unfold LikelihoodUsingSanctions at hok
    dsimp only at hok
    cases hvi : violation_indices (Hyp.triple context_node modality node) with
    | error e =>
      rw [hvi] at hok
      exact absurd hok (by simp)
    | ok vi =>
      rw [hvi] at hok
      dsimp only at hok
      rw [← Except.ok.inj hok]
      exact sanction_prod_nonneg P
        ⟨pnc0, pnc1, pd0, pd1, ps0, ps1, pr0, pr1⟩ obs_path sanction_indices (vi obs_path)

lemma LikelihoodUsingPlans_ok_nonneg (P : Params) (hP : ParamsValid P)
    (plan_paths : List (List String)) (obs_path : List String) (hypothesis : Hyp) (v : ℚ)
    (hok : LikelihoodUsingPlans P plan_paths obs_path hypothesis = .ok v) :
    0 ≤ v := by
  obtain ⟨pnc0, pnc1, _, _, _, _, _, _⟩ := hP
  have hrho : (0 : ℚ) ≤
      ((plan_paths.filter (fun path => is_sub_list obs_path path)).length : ℚ) /
        (plan_paths.length : ℚ) :=
    div_nonneg (Nat.cast_nonneg _) (Nat.cast_nonneg _)
  have hbranch : ∀ breaching : List String → Bool, ∀ w : ℚ,
      ((if ((plan_paths.length : ℚ) -
            ((plan_paths.filter breaching).length : ℚ) = 0) then
          Except.ok (ε := PyErr) (P.prob_non_compliance *
            (((plan_paths.filter (fun path => is_sub_list obs_path path)).length : ℚ) /
             (plan_paths.length : ℚ)))
        else
          Except.ok ((1 - P.prob_non_compliance) *
              (((plan_paths.filter (fun path => is_sub_list obs_path path)).length : ℚ) -
               (((plan_paths.filter
                   (fun path => is_sub_list obs_path path)).filter breaching).length : ℚ)) /
              ((plan_paths.length : ℚ) - ((plan_paths.filter breaching).length : ℚ)) +
            P.prob_non_compliance *
              (((plan_paths.filter (fun path => is_sub_list obs_path path)).length : ℚ) /
               (plan_paths.length : ℚ)))) = .ok w) → 0 ≤ w := by
    intro breaching w hw
    split at hw
    · rw [← Except.ok.inj hw]
      exact mul_nonneg pnc0 hrho
    · rw [← Except.ok.inj hw]
      have hXle : ((plan_paths.filter
            (fun path => is_sub_list obs_path path)).filter breaching).length ≤
          (plan_paths.filter (fun path => is_sub_list obs_path path)).length :=
        List.length_filter_le _ _
      have hYle : (plan_paths.filter breaching).length ≤ plan_paths.length :=
        List.length_filter_le _ _
      have hX : (0 : ℚ) ≤
          ((plan_paths.filter (fun path => is_sub_list obs_path path)).length : ℚ) -
          (((plan_paths.filter
              (fun path => is_sub_list obs_path path)).filter breaching).length : ℚ) := by
        have hc := (Nat.cast_le (α := ℚ)).mpr hXle
        linarith
      have hY : (0 : ℚ) ≤
          (plan_paths.length : ℚ) - ((plan_paths.filter breaching).length : ℚ) := by
        have hc := (Nat.cast_le (α := ℚ)).mpr hYle
        linarith
      exact add_nonneg
        (div_nonneg (mul_nonneg (by linarith) hX) hY)
        (mul_nonneg pnc0 hrho)
  unfold LikelihoodUsingPlans at hok
  dsimp only at hok
  by_cases hlen : plan_paths.length = 0
  · rw [if_pos hlen] at hok
    exact absurd hok (by simp)
  · rw [if_neg hlen] at hok
    by_cases hcnt : ((plan_paths.filter (fun path => is_sub_list obs_path path)).length = 0)
    · rw [if_pos hcnt] at hok
      exact absurd hok (by simp)
    · rw [if_neg hcnt] at hok
      cases hypothesis with
      | none =>
        rw [← Except.ok.inj hok]
        exact hrho
      | pair modality node =>
        dsimp only at hok
        cases hbr : is_norm_breaching (Hyp.pair modality node) with
        | error e =>
          rw [hbr] at hok
          exact absurd hok (by simp)
        | ok breaching =>
          rw [hbr] at hok
          dsimp only at hok
          exact hbranch breaching v hok
      | triple context_node modality node =>
        dsimp only at hok
        cases hbr : is_norm_breaching (Hyp.triple context_node modality node) with
        | error e =>
          rw [hbr] at hok
          exact absurd hok (by simp)
        | ok breaching =>
          rw [hbr] at hok
          dsimp only at hok
          exact hbranch breaching v hok

lemma pydiv_ok (a b r : ℚ) (h : pydiv a b = .ok r) : r = a / b := by
  unfold pydiv at h
  split at h
  · exact absurd h (by simp)
  · exact (Except.ok.inj h).symm

lemma hypothesis_update_ok_mult (P : Params) (plan_paths : List (List String))
    (obs_without_sanctions : List String) (sanction_indices : Finset ℕ)
    (nns : ℚ) (plan_baseline : Option ℚ) (hm x : Hyp × ℚ)
    (hP : ParamsValid P) (hnn : 0 ≤ nns)
    (hpb : ∀ nn, plan_baseline = some nn → 0 ≤ nn)
    (hok : hypothesis_update P plan_paths obs_without_sanctions sanction_indices nns
      plan_baseline hm = .ok x) :
    x.1 = hm.1 ∧ ∃ r : ℚ, 0 ≤ r ∧ x.2 = hm.2 * r := by
  unfold hypothesis_update at hok
  split at hok
  · rw [← Except.ok.inj hok]
    exact ⟨rfl, 1, zero_le_one, (mul_one _).symm⟩
  · split at hok
    · exact absurd hok (by simp)
    · rename_i hypo_likelihood hls
      have hls0 : 0 ≤ hypo_likelihood :=
        LikelihoodUsingSanctions_ok_nonneg P hP _ _ _ _ hls
      split at hok
      · exact absurd hok (by simp)
      · rename_i r1 hr1
        have hr1v : r1 = hypo_likelihood / nns := pydiv_ok _ _ _ hr1
        have hr10 : 0 ≤ r1 := hr1v ▸ div_nonneg hls0 hnn
        split at hok
        · rw [← Except.ok.inj hok]
          exact ⟨rfl, r1, hr10, rfl⟩
        · exact absurd hok (by simp)
        · rename_i hypo_plan_likelihood hlp
          have hlp0 : 0 ≤ hypo_plan_likelihood :=
            LikelihoodUsingPlans_ok_nonneg P hP _ _ _ _ hlp
          cases hpbv : plan_baseline with
          | none =>
            rw [hpbv] at hok
            exact absurd hok (by simp)
          | some nn =>
            rw [hpbv] at hok
            dsimp only at hok
            have hnn' : 0 ≤ nn := hpb nn hpbv
            split at hok
            · exact absurd hok (by simp)
            · rename_i r2 hr2
              have hr2v : r2 = hypo_plan_likelihood / nn := pydiv_ok _ _ _ hr2
              have hr20 : 0 ≤ r2 := by
                rw [hr2v]
                exact div_nonneg hlp0 hnn'
              rw [← Except.ok.inj hok]
              exact ⟨rfl, r1 * r2, mul_nonneg hr10 hr20, mul_assoc _ _ _⟩

lemma update_store_ok_pointwise (f : Hyp × ℚ → Except PyErr (Hyp × ℚ))
    (store store' : List (Hyp × ℚ))
    (h : update_store f store = .ok store') :
    store'.length = store.length ∧
    ∀ k (hk : k < store.length) (hk' : k < store'.length),
      f (store.get ⟨k, hk⟩) = .ok (store'.get ⟨k, hk'⟩) := by
  induction store generalizing store' with
  | nil =>
    have h2 : Except.ok (ε := PyErr) ([] : List (Hyp × ℚ)) = .ok store' := h
    rw [← Except.ok.inj h2]
    exact ⟨rfl, fun k hk => absurd hk (by simp)⟩
  | cons hm rest ih =>
    unfold update_store at h
    split at h
    · exact absurd h (by simp)
    · rename_i x hx
      split at h
      · exact absurd h (by simp)
      · rename_i xs hxs
        rw [← Except.ok.inj h]
        obtain ⟨hlen, hpt⟩ := ih xs hxs
        refine ⟨by simp [hlen], ?_⟩
        intro k hk hk'
        cases k with
        | zero => exact hx
        | succ k =>
          exact hpt k (by simpa using hk) (by simpa using hk')

/-- Claim C8: `Normalize` is a no-op for any fraction argument, and an update
only ever changes a hypothesis's stored mass by multiplying it by a
non-negative ratio, so masses that start non-negative never become negative
(given the four probability parameters lie in [0,1]). -/
theorem C8_update_multiplies_by_nonneg_ratio :
    (∀ (fraction : ℚ) (store : List (Hyp × ℚ)), Normalize fraction store = store) ∧
    (∀ (P : Params) (plan_paths : List (List String)) (obs : List String)
       (store store' : List (Hyp × ℚ)),
      ParamsValid P →
      UpdateOddsRatioVsNoNorm P plan_paths store obs = .ok store' →
      store'.length = store.length ∧
      ∀ k (hk : k < store.length) (hk' : k < store'.length),
        (store'.get ⟨k, hk'⟩).1 = (store.get ⟨k, hk⟩).1 ∧
        ∃ r : ℚ, 0 ≤ r ∧ (store'.get ⟨k, hk'⟩).2 = (store.get ⟨k, hk⟩).2 * r) := by
  constructor
  · intro fraction store
    rfl
  · intro P plan_paths obs store store' hP hok
    have hnns : LikelihoodUsingSanctions P (parse_obs obs).1 (parse_obs obs).2 Hyp.none =
        .ok ((1 - P.prob_random_punishment) ^
              (((parse_obs obs).1.length : ℤ) - (((parse_obs obs).2.card : ℕ) : ℤ)) *
             P.prob_random_punishment ^ ((parse_obs obs).2.card : ℕ)) := rfl
    have hnn0 : 0 ≤ (1 - P.prob_random_punishment) ^
              (((parse_obs obs).1.length : ℤ) - (((parse_obs obs).2.card : ℕ) : ℤ)) *
             P.prob_random_punishment ^ ((parse_obs obs).2.card : ℕ) :=
      LikelihoodUsingSanctions_ok_nonneg P hP _ _ _ _ hnns
    unfold UpdateOddsRatioVsNoNorm at hok
    dsimp only at hok
    rw [hnns] at hok
    dsimp only at hok
    have hfin : ∀ (pb : Option ℚ), (∀ nn, pb = some nn → 0 ≤ nn) →
        update_store (hypothesis_update P plan_paths (parse_obs obs).1 (parse_obs obs).2
          ((1 - P.prob_random_punishment) ^
              (((parse_obs obs).1.length : ℤ) - (((parse_obs obs).2.card : ℕ) : ℤ)) *
             P.prob_random_punishment ^ ((parse_obs obs).2.card : ℕ)) pb) store = .ok store' →
        store'.length = store.length ∧
        ∀ k (hk : k < store.length) (hk' : k < store'.length),
          (store'.get ⟨k, hk'⟩).1 = (store.get ⟨k, hk⟩).1 ∧
          ∃ r : ℚ, 0 ≤ r ∧ (store'.get ⟨k, hk'⟩).2 = (store.get ⟨k, hk⟩).2 * r := by
      intro pb hpb hupd
      obtain ⟨hlen, hpt⟩ := update_store_ok_pointwise _ store store' hupd
      refine ⟨hlen, ?_⟩
      intro k hk hk'
      obtain ⟨h1, r, hr0, hr⟩ :=
        hypothesis_update_ok_mult P plan_paths (parse_obs obs).1 (parse_obs obs).2 _ pb
          (store.get ⟨k, hk⟩) (store'.get ⟨k, hk'⟩) hP hnn0 hpb (hpt k hk hk')
      exact ⟨h1.symm ▸ rfl, r, hr0, hr⟩
    cases hbase : LikelihoodUsingPlans P plan_paths (parse_obs obs).1 Hyp.none with
    | error e =>
      rw [hbase] at hok
      cases e with
      | valueError msg =>
        exact hfin Option.none (fun nn hnn => by simp at hnn) hok
      | assertionError => exact absurd hok (by simp)
      | nameError => exact absurd hok (by simp)
      | zeroDivisionError => exact absurd hok (by simp)
    | ok v =>
      rw [hbase] at hok
      have hv0 : 0 ≤ v := LikelihoodUsingPlans_ok_nonneg P hP _ _ _ _ hbase
      exact hfin (some v) (fun nn hnn => by
        rw [Option.some_inj] at hnn
        rw [← hnn]
        exact hv0) hok

/-- A one-entry concrete mass store used by the C8 witness. -/
def store0 : List (Hyp × ℚ) := [(Hyp.none, 1)]

/-- Witness for C8: `Normalize` at fraction 1 on a one-entry store, and the
update over plans `[["a"]]`, trace `["a"]`, store `[(None, 1)]`. -/
theorem C8_update_multiplies_by_nonneg_ratio_witness :
    (Normalize 1 store0 = store0) ∧
    ParamsValid defaultParams ∧
    UpdateOddsRatioVsNoNorm defaultParams [["a"]] store0 ["a"] = .ok store0 ∧
    (store0.length = store0.length ∧
     ∀ k (hk : k < store0.length) (hk' : k < store0.length),
       (store0.get ⟨k, hk'⟩).1 = (store0.get ⟨k, hk⟩).1 ∧
       ∃ r : ℚ, 0 ≤ r ∧ (store0.get ⟨k, hk'⟩).2 = (store0.get ⟨k, hk⟩).2 * r) :=
  ⟨C8_update_multiplies_by_nonneg_ratio.1 1 store0,
   by norm_num [ParamsValid, defaultParams],
   rfl,
   C8_update_multiplies_by_nonneg_ratio.2 defaultParams [["a"]] ["a"] store0 store0
     (by norm_num [ParamsValid, defaultParams]) rfl⟩

/-- Claim C9: `SetGoal` with a new goal either (a) wholly recomputes the plan
corpus and the plan paths from the new goal alone when the planner reports the
goal achievable — the successful state is the explicit record built from the
new goal and the action set, with the previous `plans`/`plan_paths` discarded,
so no stale plan path can reach a later likelihood computation (which reads
only the state's `plan_paths`) — or (b) raises a configuration `ValueError`
naming the goal and the action set when no plan exists. -/
theorem C9_set_goal_recomputes (planned : String → List ActionT → Bool)
    (flattened_plan_tree : String → List (List ActionT))
    (st : SuiteState) (goal : String) :
    (planned goal st.actions = true →
      SetGoal planned flattened_plan_tree st goal =
        .ok { inferred_goal := goal
              actions := st.actions
              plans := flattened_plan_tree goal
              plan_paths := (flattened_plan_tree goal).map plan_path }) ∧
    (planned goal st.actions = false →
      SetGoal planned flattened_plan_tree st goal =
        .error (.valueError
          ("Error: Failed to find any plans for goal " ++ goal ++
           " given actions " ++ render_actions st.actions))) := by
  constructor
  · intro hp
    unfold SetGoal
    rw [if_pos hp]
  · intro hp
    unfold SetGoal
    rw [if_neg (by rw [hp]; exact Bool.false_ne_true)]

/-- Witness for C9: a planner that always succeeds, and one that always
fails, on a one-action suite state. -/
theorem C9_set_goal_recomputes_witness :
    ((fun (_ : String) (_ : List ActionT) => true) "new"
        (SuiteState.mk "old" [ActionT.mk ["a", "b"]] [] []).actions = true ∧
     SetGoal (fun _ _ => true) (fun _ => [[ActionT.mk ["a", "b"]]])
        (SuiteState.mk "old" [ActionT.mk ["a", "b"]] [] []) "new" =
      .ok { inferred_goal := "new"
            actions := (SuiteState.mk "old" [ActionT.mk ["a", "b"]] [] []).actions
            plans := (fun (_ : String) => [[ActionT.mk ["a", "b"]]]) "new"
            plan_paths := ((fun (_ : String) => [[ActionT.mk ["a", "b"]]]) "new").map
              plan_path }) ∧
    ((fun (_ : String) (_ : List ActionT) => false) "new"
        (SuiteState.mk "old" [ActionT.mk ["a", "b"]] [] []).actions = false ∧
     SetGoal (fun _ _ => false) (fun _ => [[ActionT.mk ["a", "b"]]])
        (SuiteState.mk "old" [ActionT.mk ["a", "b"]] [] []) "new" =
      .error (.valueError
        ("Error: Failed to find any plans for goal " ++ "new" ++
         " given actions " ++
         render_actions (SuiteState.mk "old" [ActionT.mk ["a", "b"]] [] []).actions))) :=
  ⟨⟨rfl, (C9_set_goal_recomputes (fun _ _ => true) (fun _ => [[ActionT.mk ["a", "b"]]])
      (SuiteState.mk "old" [ActionT.mk ["a", "b"]] [] []) "new").1 rfl⟩,
   ⟨rfl, (C9_set_goal_recomputes (fun _ _ => false) (fun _ => [[ActionT.mk ["a", "b"]]])
      (SuiteState.mk "old" [ActionT.mk ["a", "b"]] [] []) "new").2 rfl⟩⟩

end NormDetect
